import Mathlib

/-!
Shallow embedding of `app.py`, a small Flask application that scrapes a
fish-stocking schedule page, filters planting events by county, and renders
a map pin with a fallback chain (geocoder → county-seat table → hardcoded
center of California).

Strings are modelled over `List Char`; Python string operations
(`strip`, `lower`, `title`, `replace`, `split`, `in`) are embedded as
functions on character lists.  Calendar dates are triples of naturals; the
strptime `%m/%d/%Y` parser is embedded deterministically (the CPython
regex for `%m`/`%d`/`%Y` admits no genuine backtracking on digit input).
Coordinates are pairs of integers in units of 1e-4 degrees: every literal
in the source has exactly four decimal places, and the program never does
arithmetic on coordinates, so this encoding is exact.
-/

namespace FishApp

/-! ### Python string primitives -/

/-- ASCII whitespace as recognised by `str.strip()` on the inputs at hand. -/
def isWS (c : Char) : Bool :=
  c = ' ' || c = '\t' || c = '\n' || c = '\r' || c = '\x0b' || c = '\x0c'

/-- Python `s.strip()`: drop leading and trailing whitespace. -/
def pyStrip (cs : List Char) : List Char :=
  ((cs.dropWhile isWS).reverse.dropWhile isWS).reverse

/-- Python `s.lower()` (ASCII). -/
def pyLower (cs : List Char) : List Char :=
  cs.map Char.toLower

/-- Helper for `pyTitle`: `prev` records whether the previous character was
alphabetic (Python title-cases the first letter of every alphabetic run). -/
def pyTitleAux : List Char → Bool → List Char
  | [], _ => []
  | c :: rest, prev =>
      (if c.isAlpha then (if prev then c.toLower else c.toUpper) else c)
        :: pyTitleAux rest c.isAlpha

/-- Python `s.title()` (ASCII). -/
def pyTitle (cs : List Char) : List Char :=
  pyTitleAux cs false

/-- Python `sub in s`: contiguous-substring test. -/
def containsSeq : List Char → List Char → Bool
  | [], pat => pat.isEmpty
  | c :: rest, pat => pat.isPrefixOf (c :: rest) || containsSeq rest pat

/-- Python `s.split(sep)[0]` for a non-empty `sep`: the prefix of `s` before
the first occurrence of `sep` (all of `s` when `sep` does not occur). -/
def takeUntilSep (sep : List Char) : List Char → List Char
  | [] => []
  | c :: rest =>
      if sep.isPrefixOf (c :: rest) then [] else c :: takeUntilSep sep rest

/-- Python `s.replace(" County", "")`: remove every (non-overlapping,
left-to-right) occurrence of the 7-character literal `" County"`. -/
def removeCountySub : List Char → List Char
  | ' ' :: 'C' :: 'o' :: 'u' :: 'n' :: 't' :: 'y' :: rest => removeCountySub rest
  | c :: rest => c :: removeCountySub rest
  | [] => []

/-- String-level wrappers used at the component boundaries. -/
def strStrip (s : String) : String := ⟨pyStrip s.data⟩

def strLower (s : String) : String := ⟨pyLower s.data⟩

def strTitle (s : String) : String := ⟨pyTitle s.data⟩

/-- Code-point lexicographic comparison of character lists (the ordering
Python uses for `str` comparison). -/
def charListLt : List Char → List Char → Bool
  | [], [] => false
  | [], _ :: _ => true
  | _ :: _, [] => false
  | a :: as, b :: bs =>
      if a.toNat < b.toNat then true
      else if b.toNat < a.toNat then false
      else charListLt as bs

/-- String order used by Python `sorted` (code-point lexicographic). -/
def strLtB (a b : String) : Bool := charListLt a.data b.data

/-- Python `needle in hay`, both lowered first (the county match). -/
def containsCI (hay needle : String) : Bool :=
  containsSeq (pyLower hay.data) (pyLower needle.data)

/-! ### Calendar dates and `strptime "%m/%d/%Y"` -/

/-- A calendar date as parsed by `datetime.datetime.strptime(_, "%m/%d/%Y")`. -/
structure MDate where
  year : Nat
  month : Nat
  day : Nat
deriving DecidableEq, Repr

/-- Order-faithful numeric encoding of a date (for valid dates,
`code` ordering coincides with Python `datetime.date` ordering). -/
def MDate.code (d : MDate) : Nat :=
  d.year * 10000 + d.month * 100 + d.day

def isLeap (y : Nat) : Bool :=
  y % 4 = 0 && (y % 100 ≠ 0 || y % 400 = 0)

def daysInMonth (y m : Nat) : Nat :=
  if m = 2 then (if isLeap y then 29 else 28)
  else if m = 4 || m = 6 || m = 9 || m = 11 then 30
  else 31

/-- The validation performed by the `datetime.date` constructor
(`MINYEAR = 1`; `%Y` admits at most 4 digits so the upper bound is vacuous). -/
def validDate (y m d : Nat) : Bool :=
  1 ≤ y && 1 ≤ m && m ≤ 12 && 1 ≤ d && d ≤ daysInMonth y m

def digitVal (c : Char) : Nat := c.toNat - '0'.toNat

def natOfDigits (cs : List Char) : Nat :=
  cs.foldl (fun acc c => acc * 10 + digitVal c) 0

/-- Read one or two leading digits (CPython's `%m`/`%d` regexes match two
digits whenever two digits are present, else one); returns the digit block
and the remainder. -/
def readNum : List Char → Option (List Char × List Char)
  | [] => none
  | c1 :: rest1 =>
      if c1.isDigit then
        match rest1 with
        | c2 :: rest2 =>
            if c2.isDigit then some ([c1, c2], rest2) else some ([c1], rest1)
        | [] => some ([c1], [])
      else none

/-- `datetime.datetime.strptime(s, "%m/%d/%Y").date()`:
month `/` day `/` four-digit year, whole string consumed, then calendar
validation.  Returns `none` exactly when CPython raises `ValueError`. -/
def parseMDY (cs : List Char) : Option MDate :=
  match readNum cs with
  | none => none
  | some (ms, rest1) =>
      let m := natOfDigits ms
      if 1 ≤ m ∧ m ≤ 12 then
        match rest1 with
        | '/' :: rest2 =>
            match readNum rest2 with
            | none => none
            | some (ds, rest3) =>
                let d := natOfDigits ds
                if 1 ≤ d ∧ d ≤ 31 then
                  match rest3 with
                  | '/' :: rest4 =>
                      if rest4.length = 4 ∧ rest4.all Char.isDigit then
                        let y := natOfDigits rest4
                        if validDate y m d then some ⟨y, m, d⟩ else none
                      else none
                  | _ => none
                else none
        | _ => none
      else none

/-- The start token of a week label:
`week.split(" - ")[0] if " - " in week else week.split("-")[0]`. -/
def startTok (week : List Char) : List Char :=
  if containsSeq week (" - ".data) then takeUntilSep (" - ".data) week
  else takeUntilSep ("-".data) week

/-- The date the scraper assigns to a row from its week label:
`strptime(start_str.strip(), "%m/%d/%Y")`. -/
def parseStartDate (week : String) : Option MDate :=
  parseMDY (pyStrip (startTok week.data))

/-! ### HTML table model

A table cell is a flat list of nodes: raw text runs (`NavigableString`s,
which in bs4 are `str` instances) and element children carrying a tag name
and their inner text.  This is the shape the scraper's loops observe via
`td.contents` and `td.get_text(strip=True)`. -/

inductive Node where
  | text (s : String)
  | elem (tag : String) (inner : String)
deriving DecidableEq, Repr

/-- A table cell (`<td>`). -/
structure Cell where
  nodes : List Node
deriving DecidableEq, Repr, Inhabited

/-- A table row: `row.find_all('td')`. -/
abbrev Row := List Cell

/-- `cell.get_text(strip=True)`: each text fragment stripped, concatenated. -/
def getText (c : Cell) : String :=
  ⟨(c.nodes.map fun n =>
      match n with
      | .text s => pyStrip s.data
      | .elem _ inner => pyStrip inner.data).flatten⟩

/-- The water-name loop: accumulate stripped raw strings of the 2nd cell,
stop at the first `<a>` element, skip other elements; finally strip. -/
def waterNameAux : List Node → List Char
  | [] => []
  | .text s :: rest => pyStrip s.data ++ waterNameAux rest
  | .elem tag _ :: rest =>
      if tag = "a" then [] else waterNameAux rest

def waterName (c : Cell) : String :=
  ⟨pyStrip (waterNameAux c.nodes)⟩

/-! ### The scraper (`get_fish_plants_for_county`) -/

/-- One surviving stocking event (an element of `plants`). -/
structure Plant where
  water : String
  date : MDate
  week : String
  species : String
deriving DecidableEq, Repr

/-- The per-row body of the scrape loop: `none` means `continue` (the row is
skipped), `some p` means `p` is appended to `plants`. -/
def parseRow (county_input : String) (row : Row) : Option Plant :=
  if row.length < 4 then none
  else
    let wn := waterName (row.get! 1)
    if wn = "" then none
    else
      let county_text := getText (row.get! 2)
      if ¬ containsCI county_text county_input then none
      else
        let week_text := getText (row.get! 0)
        let species := getText (row.get! 3)
        match parseStartDate week_text with
        | none => none
        | some d => some ⟨wn, d, week_text, species⟩

/-- The surviving events of a table: `table.find_all('tr')[1:]` filtered and
parsed row by row. -/
def plantsOf (county_input : String) (trs : List Row) : List Plant :=
  (trs.drop 1).filterMap (parseRow county_input)

/-- First-occurrence-ordered deduplication (the key order of a Python dict
populated by insertion). -/
def firstDedup : List String → List String
  | [] => []
  | x :: rest => x :: (firstDedup rest).filter fun y => y ≠ x

/-- `defaultdict(list)` grouping by `p['water']`: keys in first-occurrence
order, each key's group holding exactly its plants in list order. -/
def groupByWater (ps : List Plant) : List (String × List Plant) :=
  (firstDedup (ps.map Plant.water)).map fun w =>
    (w, ps.filter fun p => p.water = w)

/-- A `WaterBodyResult`: `{'recent': …, 'upcoming': …}`. -/
structure WBR where
  recent : Option Plant
  upcoming : Option Plant
deriving DecidableEq, Repr

/-- Stable insertion (by a strict comparison `lt`): `x` is placed before the
first element not strictly below it, so elements comparing equal keep their
original relative order — the stability guarantee of Python `list.sort` and
`sorted`. -/
def insertBy (lt : α → α → Bool) (x : α) : List α → List α
  | [] => [x]
  | y :: rest => if lt y x then y :: insertBy lt x rest else x :: y :: rest

/-- Stable sort (the observable behaviour of Python `list.sort`/`sorted`). -/
def sortBy (lt : α → α → Bool) (l : List α) : List α :=
  l.foldr (insertBy lt) []

/-- Strict comparison for `entries.sort(key=lambda x: x['date'])`. -/
def plantLt (a b : Plant) : Bool := a.date.code < b.date.code

/-- The body of the grouping loop: sort a group ascending by date, take
`recent` as the first element from the end with date ≤ today and `upcoming`
as the first element with date > today. -/
def wbrOf (today : MDate) (entries : List Plant) : WBR :=
  let sorted := sortBy plantLt entries
  ⟨sorted.reverse.find? (fun e => e.date.code ≤ today.code),
   sorted.find? (fun e => today.code < e.date.code)⟩

/-- `dict(sorted(results.items()))`: the result mapping as an association
list sorted by water name (keys are distinct, so the tuple comparison of
`sorted` never reaches the values). -/
def resultsFor (today : MDate) (ps : List Plant) : List (String × WBR) :=
  sortBy (fun a b => strLtB a.1 b.1)
    ((groupByWater ps).map fun g => (g.1, wbrOf today g.2))

/-- Outcome of the page fetch, as the scraper distinguishes them. -/
inductive FetchOutcome where
  | fail (msg : String)        -- `requests` raised; message is `str(e)`
  | noTable                    -- page fetched but `soup.find('table')` is `None`
  | ok (trs : List Row)        -- the first table's rows

/-- `get_fish_plants_for_county`: returns the results mapping and an error
message, exactly one of which is present. -/
def get_fish_plants_for_county (today : MDate) (county_input : String) :
    FetchOutcome → Option (List (String × WBR)) × Option String
  | .fail msg => (none, some msg)
  | .noTable => (none, some "Fish planting table not found.")
  | .ok trs => (some (resultsFor today (plantsOf county_input trs)), none)

/-! ### County list provider (`get_counties_from_cdfw`) -/

/-- The hardcoded fallback list in the `except` branch. -/
def fallbackCounties : List String := [
  "Alameda",
  "Alpine",
  "Amador",
  "Butte",
  "Calaveras",
  "Colusa",
  "Contra Costa",
  "Del Norte",
  "El Dorado",
  "Fresno",
  "Glenn",
  "Humboldt",
  "Imperial",
  "Inyo",
  "Kern",
  "Kings",
  "Lake",
  "Lassen",
  "Los Angeles",
  "Madera",
  "Marin",
  "Mariposa",
  "Mendocino",
  "Merced",
  "Modoc",
  "Mono",
  "Monterey",
  "Napa",
  "Nevada",
  "Orange",
  "Placer",
  "Plumas",
  "Riverside",
  "Sacramento",
  "San Benito",
  "San Bernardino",
  "San Diego",
  "San Francisco",
  "San Joaquin",
  "San Luis Obispo",
  "San Mateo",
  "Santa Barbara",
  "Santa Clara",
  "Santa Cruz",
  "Shasta",
  "Sierra",
  "Siskiyou",
  "Solano",
  "Sonoma",
  "Stanislaus",
  "Sutter",
  "Tehama",
  "Trinity",
  "Tulare",
  "Tuolumne",
  "Ventura",
  "Yolo",
  "Yuba"
]

/-- The county-list cache: `COUNTIES_CACHE` and `CACHE_TIME` (seconds). -/
structure CountiesCache where
  list : List String
  time : Nat
deriving DecidableEq, Repr

/-- `COUNTIES_CACHE and CACHE_TIME and (now - CACHE_TIME).total_seconds() < 3600`
(an empty cached list is falsy in Python, hence refetched). -/
def cacheFresh (cache : Option CountiesCache) (now : Nat) : Bool :=
  match cache with
  | none => false
  | some c => !c.list.isEmpty && now - c.time < 3600

/-- The success-branch parse: for every row after the header with ≥ 3 cells
and non-empty 3rd-cell text, title-case that text; collect the distinct
values sorted. -/
def parseCounties (trs : List Row) : List String :=
  sortBy strLtB (firstDedup ((trs.drop 1).filterMap fun row =>
      if row.length ≥ 3 then
        let t := getText (row.get! 2)
        if t = "" then none else some (strTitle t)
      else none))

/-- `get_counties_from_cdfw`, with the fetch outcome made explicit
(`none` = any raise caught by the bare `except`).  Returns the list and the
cache state after the call. -/
def get_counties_from_cdfw (cache : Option CountiesCache) (now : Nat) :
    Option (List Row) → List String × Option CountiesCache
  | fetch =>
    if cacheFresh cache now then
      match cache with
      | some c => (c.list, cache)
      | none => ([], cache)   -- unreachable: freshness requires a cache
    else
      match fetch with
      | none => (sortBy strLtB fallbackCounties, cache)
      | some trs =>
          let cs := parseCounties trs
          (cs, some ⟨cs, now⟩)

/-! ### Geocoder (`geocode_water`) -/

/-- A coordinate in units of 1e-4 degrees. -/
abbrev Coord := Int × Int

/-- `GEOCODE_CACHE`: key → coordinate or explicit not-found marker.  Modelled
as an association list where insertion prepends (keys are never overwritten:
each call writes at most once, and only after a failed lookup). -/
abbrev GCache := List (String × Option Coord)

def gcLookup (cache : GCache) (k : String) : Option (Option Coord) :=
  (cache.find? fun e => e.1 = k).map Prod.snd

/-- `key = f"{water.lower()}|{county.lower()}"`. -/
def geocodeKey (water county : String) : String :=
  strLower water ++ "|" ++ strLower county

/-- The free-text query sent to the geocoding service. -/
def geocodeQuery (water county : String) : String :=
  water ++ ", " ++ county ++ " County, California"

/-- The external geocoding service, abstracted as a function from the query
text to `some` coordinate (non-empty JSON array with parsable lat/lon) or
`none` (any failure: network error, empty result, malformed response). -/
abbrev Svc := String → Option Coord

/-- `geocode_water`: returns the result, the cache after the call, and
whether an external query was issued. -/
def geocode_water (svc : Svc) (cache : GCache) (water county : String) :
    Option Coord × GCache × Bool :=
  let key := geocodeKey water county
  match gcLookup cache key with
  | some v => (v, cache, false)
  | none =>
      let r := svc (geocodeQuery water county)
      (r, (key, r) :: cache, true)

/-! ### County-seat fallback table and `get_county_seat_coords` -/

/-- `COUNTY_SEATS` (coordinates in units of 1e-4 degrees, exact). -/
def COUNTY_SEATS : List (String × Int × Int) := [
  ("Alameda", 377799, -1222827),
  ("Alpine", 385969, -1198210),
  ("Amador", 383477, -1207741),
  ("Butte", 397285, -1218375),
  ("Calaveras", 381960, -1206805),
  ("Colusa", 392143, -1220094),
  ("Contra Costa", 379735, -1220311),
  ("Del Norte", 417542, -1242006),
  ("El Dorado", 387296, -1207985),
  ("Fresno", 367378, -1197871),
  ("Glenn", 395200, -1221936),
  ("Humboldt", 408021, -1241637),
  ("Imperial", 328473, -1155694),
  ("Inyo", 366044, -1180625),
  ("Kern", 353733, -1189854),
  ("Kings", 360726, -1198154),
  ("Lake", 389444, -1226264),
  ("Lassen", 404163, -1206620),
  ("Los Angeles", 340522, -1182437),
  ("Madera", 369613, -1200607),
  ("Marin", 379358, -1225311),
  ("Mariposa", 374849, -1199663),
  ("Mendocino", 393077, -1237995),
  ("Merced", 373022, -1204830),
  ("Modoc", 414899, -1207243),
  ("Mono", 379399, -1188800),
  ("Monterey", 366002, -1218947),
  ("Napa", 382975, -1222869),
  ("Nevada", 392616, -1210180),
  ("Orange", 337878, -1178531),
  ("Placer", 390620, -1207229),
  ("Plumas", 399380, -1209033),
  ("Riverside", 339806, -1173755),
  ("Sacramento", 385816, -1214944),
  ("San Benito", 368454, -1213542),
  ("San Bernardino", 341083, -1172898),
  ("San Diego", 327157, -1171611),
  ("San Francisco", 377749, -1224194),
  ("San Joaquin", 379349, -1212730),
  ("San Luis Obispo", 352828, -1206596),
  ("San Mateo", 375630, -1223255),
  ("Santa Barbara", 344208, -1196982),
  ("Santa Clara", 373541, -1219552),
  ("Santa Cruz", 369741, -1220308),
  ("Shasta", 405865, -1223917),
  ("Sierra", 395920, -1203680),
  ("Siskiyou", 415900, -1226370),
  ("Solano", 382682, -1220390),
  ("Sonoma", 384404, -1227141),
  ("Stanislaus", 375585, -1209977),
  ("Sutter", 390646, -1216147),
  ("Tehama", 400240, -1222350),
  ("Trinity", 407359, -1229459),
  ("Tulare", 362072, -1188020),
  ("Tuolumne", 379625, -1202400),
  ("Ventura", 342805, -1192945),
  ("Yolo", 387585, -1217439),
  ("Yuba", 391371, -1215835)
]

/-- `get_county_seat_coords`: remove every " County", strip, title-case,
look up. -/
def get_county_seat_coords (county_name : String) : Option Coord :=
  (COUNTY_SEATS.find? fun e =>
      e.1 = strTitle (strStrip ⟨removeCountySub county_name.data⟩)).map
    fun e => (e.2.1, e.2.2)

/-! ### Map view (`map_view`) -/

/-- The user-visible fallback messages, as structured values (the template
text is presentation). -/
inductive FallbackMsg where
  | seatSubstitution (water county : String)  -- "… not found — showing <county> County seat."
  | centerFallback                            -- "… showing center of California."
deriving DecidableEq, Repr

/-- Center of California: (36.7783, -119.4179). -/
def caCenter : Coord := (367783, -1194179)

/-- `map_view` after URL-decoding `water`: resolve the pin coordinate through
geocoder → county seat → hardcoded center, with the accompanying message.
Returns ((lat, lon), message, cache after the call). -/
def map_view (svc : Svc) (cache : GCache) (county water : String) :
    Coord × Option FallbackMsg × GCache :=
  let g := geocode_water svc cache water county
  match g.1 with
  | some c => (c, none, g.2.1)
  | none =>
      match get_county_seat_coords county with
      | some c => (c, some (.seatSubstitution water county), g.2.1)
      | none => (caCenter, some .centerFallback, g.2.1)

/-! ### General lemmas about the sorting and searching combinators -/

theorem insertBy_perm (lt : α → α → Bool) (x : α) (l : List α) :
    List.Perm (insertBy lt x l) (x :: l) := by
  induction l with
  | nil => exact List.Perm.refl _
  | cons y rest ih =>
      simp only [insertBy]
      split
      · exact (List.Perm.cons y ih).trans (List.Perm.swap x y rest)
      · exact List.Perm.refl _

theorem sortBy_perm (lt : α → α → Bool) (l : List α) :
    List.Perm (sortBy lt l) l := by
  induction l with
  | nil => exact List.Perm.refl _
  | cons x rest ih =>
      exact (insertBy_perm lt x (sortBy lt rest)).trans (List.Perm.cons x ih)

theorem mem_sortBy {lt : α → α → Bool} {l : List α} {x : α} :
    x ∈ sortBy lt l ↔ x ∈ l :=
  (sortBy_perm lt l).mem_iff

theorem pairwise_insertBy {lt : α → α → Bool}
    (negtrans : ∀ a b c, lt b a = false → lt c b = false → lt c a = false)
    (asym : ∀ a b, lt a b = true → lt b a = false)
    (x : α) {l : List α} (h : l.Pairwise fun a b => lt b a = false) :
    (insertBy lt x l).Pairwise fun a b => lt b a = false := by
  induction l with
  | nil => simp [insertBy]
  | cons y rest ih =>
      rcases List.pairwise_cons.1 h with ⟨hy, hrest⟩
      simp only [insertBy]
      split
      next hlt =>
        refine List.pairwise_cons.2 ⟨?_, ih hrest⟩
        intro z hz
        rcases List.mem_cons.1 ((insertBy_perm lt x rest).mem_iff.1 hz) with h3 | h3
        · rw [h3]; exact asym y x hlt
        · exact hy z h3
      next hlt =>
        refine List.pairwise_cons.2 ⟨?_, h⟩
        intro z hz
        rcases List.mem_cons.1 hz with rfl | hz'
        · exact Bool.eq_false_iff.2 hlt
        · exact negtrans x y z (Bool.eq_false_iff.2 hlt) (hy z hz')

theorem sortBy_pairwise {lt : α → α → Bool}
    (negtrans : ∀ a b c, lt b a = false → lt c b = false → lt c a = false)
    (asym : ∀ a b, lt a b = true → lt b a = false)
    (l : List α) :
    (sortBy lt l).Pairwise fun a b => lt b a = false := by
  induction l with
  | nil => simp [sortBy]
  | cons x rest ih => exact pairwise_insertBy negtrans asym x ih

/-- `find?` over a `Pairwise r` list returns a satisfying element that is
`r`-below every other satisfying element. -/
theorem find_first_min {r : α → α → Prop} {p : α → Bool} :
    ∀ {l : List α}, l.Pairwise r → ∀ {e : α}, l.find? p = some e →
      p e = true ∧ e ∈ l ∧ ∀ x ∈ l, p x = true → x = e ∨ r e x := by
  intro l
  induction l with
  | nil => intro _ e h; simp [List.find?] at h
  | cons a rest ih =>
      intro hp e hfind
      rcases List.pairwise_cons.1 hp with ⟨ha, hrest⟩
      by_cases hpa : p a = true
      · rw [List.find?_cons_of_pos _ hpa] at hfind
        cases hfind
        refine ⟨hpa, List.mem_cons_self _ _, ?_⟩
        intro x hx _
        rcases List.mem_cons.1 hx with rfl | hx'
        · exact Or.inl rfl
        · exact Or.inr (ha x hx')
      · rw [List.find?_cons_of_neg _ (by simpa using hpa)] at hfind
        obtain ⟨hpe, hmem, hmin⟩ := ih hrest hfind
        refine ⟨hpe, List.mem_cons_of_mem _ hmem, ?_⟩
        intro x hx hpx
        rcases List.mem_cons.1 hx with rfl | hx'
        · exact absurd hpx hpa
        · exact hmin x hx' hpx

theorem mem_firstDedup : ∀ {l : List String} {x : String},
    x ∈ firstDedup l ↔ x ∈ l := by
  intro l
  induction l with
  | nil => simp [firstDedup]
  | cons y rest ih =>
      intro x
      simp only [firstDedup, List.mem_cons, List.mem_filter, ih]
      by_cases hxy : x = y <;> simp [hxy]

/-- Every entry of `groupByWater ps` pairs a water name with exactly the
plants of `ps` bearing that name, and that name occurs in `ps`. -/
theorem groupByWater_mem {ps : List Plant} {w : String} {es : List Plant}
    (h : (w, es) ∈ groupByWater ps) :
    es = ps.filter (fun p => p.water = w) ∧ ∃ p ∈ ps, p.water = w := by
  obtain ⟨w', hw', heq⟩ := List.mem_map.1 h
  injection heq with h1 h2
  subst h1
  refine ⟨h2.symm, ?_⟩
  have hmem : w' ∈ ps.map Plant.water := mem_firstDedup.1 hw'
  obtain ⟨p, hp, hpw⟩ := List.mem_map.1 hmem
  exact ⟨p, hp, hpw⟩

theorem plantLt_negtrans : ∀ a b c : Plant,
    plantLt b a = false → plantLt c b = false → plantLt c a = false := by
  intro a b c h1 h2
  simp only [plantLt, decide_eq_false_iff_not, not_lt] at *
  omega

theorem plantLt_asym : ∀ a b : Plant,
    plantLt a b = true → plantLt b a = false := by
  intro a b h1
  simp only [plantLt, decide_eq_true_eq, decide_eq_false_iff_not, not_lt] at *
  omega

/-- `recent` of a non-trivial group: the first element from the end of the
date-sorted group with date ≤ today is a maximal-date such event. -/
theorem wbrOf_recent_spec (today : MDate) (es : List Plant)
    (h : ∃ e ∈ es, e.date.code ≤ today.code) :
    ∃ m, (wbrOf today es).recent = some m ∧ m ∈ es ∧ m.date.code ≤ today.code ∧
      ∀ e ∈ es, e.date.code ≤ today.code → e.date.code ≤ m.date.code := by
  have hpw : (sortBy plantLt es).Pairwise (fun a b => plantLt b a = false) :=
    sortBy_pairwise plantLt_negtrans plantLt_asym es
  have hpwrev : (sortBy plantLt es).reverse.Pairwise
      (fun a b => plantLt a b = false) := List.pairwise_reverse.2 hpw
  obtain ⟨e0, he0, hd0⟩ := h
  have hmem0 : e0 ∈ (sortBy plantLt es).reverse := by
    rw [List.mem_reverse, mem_sortBy]; exact he0
  have hne : (sortBy plantLt es).reverse.find?
      (fun e => e.date.code ≤ today.code) ≠ none := by
    intro hn
    rw [List.find?_eq_none] at hn
    exact absurd (by simpa using hd0) (by simpa using hn e0 hmem0)
  obtain ⟨m, hm⟩ := Option.ne_none_iff_exists'.1 hne
  obtain ⟨hpm, hmemm, hmin⟩ := find_first_min hpwrev hm
  refine ⟨m, hm, mem_sortBy.1 (List.mem_reverse.1 hmemm), by simpa using hpm, ?_⟩
  intro e he hde
  have heL : e ∈ (sortBy plantLt es).reverse := by
    rw [List.mem_reverse, mem_sortBy]; exact he
  rcases hmin e heL (by simpa using hde) with h4 | h4
  · rw [h4]
  · have := (by simpa [plantLt, not_lt] using h4 : e.date.code ≤ m.date.code)
    exact this

/-- `recent` is absent exactly when the group has no event dated ≤ today. -/
theorem wbrOf_recent_none (today : MDate) (es : List Plant)
    (h : ∀ e ∈ es, ¬ e.date.code ≤ today.code) :
    (wbrOf today es).recent = none := by
  apply List.find?_eq_none.2
  intro e he
  have : e ∈ es := mem_sortBy.1 (List.mem_reverse.1 he)
  simpa using h e this

/-- `upcoming` of a non-trivial group: the first element of the date-sorted
group with date > today is a minimal-date such event. -/
theorem wbrOf_upcoming_spec (today : MDate) (es : List Plant)
    (h : ∃ e ∈ es, today.code < e.date.code) :
    ∃ m, (wbrOf today es).upcoming = some m ∧ m ∈ es ∧ today.code < m.date.code ∧
      ∀ e ∈ es, today.code < e.date.code → m.date.code ≤ e.date.code := by
  have hpw : (sortBy plantLt es).Pairwise (fun a b => plantLt b a = false) :=
    sortBy_pairwise plantLt_negtrans plantLt_asym es
  obtain ⟨e0, he0, hd0⟩ := h
  have hmem0 : e0 ∈ sortBy plantLt es := mem_sortBy.2 he0
  have hne : (sortBy plantLt es).find?
      (fun e => today.code < e.date.code) ≠ none := by
    intro hn
    rw [List.find?_eq_none] at hn
    exact absurd (by simpa using hd0) (by simpa using hn e0 hmem0)
  obtain ⟨m, hm⟩ := Option.ne_none_iff_exists'.1 hne
  obtain ⟨hpm, hmemm, hmin⟩ := find_first_min hpw hm
  refine ⟨m, hm, mem_sortBy.1 hmemm, by simpa using hpm, ?_⟩
  intro e he hde
  have heL : e ∈ sortBy plantLt es := mem_sortBy.2 he
  rcases hmin e heL (by simpa using hde) with h4 | h4
  · rw [h4]
  · exact (by simpa [plantLt, not_lt] using h4 : m.date.code ≤ e.date.code)

/-- `upcoming` is absent exactly when the group has no event dated > today. -/
theorem wbrOf_upcoming_none (today : MDate) (es : List Plant)
    (h : ∀ e ∈ es, ¬ today.code < e.date.code) :
    (wbrOf today es).upcoming = none := by
  apply List.find?_eq_none.2
  intro e he
  simpa using h e (mem_sortBy.1 he)

/-- Unpacking membership in the final sorted result mapping. -/
theorem resultsFor_mem {today : MDate} {ps : List Plant} {w : String} {r : WBR}
    (h : (w, r) ∈ resultsFor today ps) :
    r = wbrOf today (ps.filter fun p => p.water = w) ∧ ∃ p ∈ ps, p.water = w := by
  have h1 : (w, r) ∈ (groupByWater ps).map fun g => (g.1, wbrOf today g.2) :=
    mem_sortBy.1 h
  obtain ⟨⟨w', es'⟩, hg, heq⟩ := List.mem_map.1 h1
  injection heq with hw hr
  subst hw
  obtain ⟨hfil, hex⟩ := groupByWater_mem hg
  subst hfil
  exact ⟨hr.symm, hex⟩

/-! ### Concrete sample data used to instantiate the theorems -/

def sampleHeaderRow : Row :=
  [⟨[.text "Week"]⟩, ⟨[.text "Water"]⟩, ⟨[.text "County"]⟩, ⟨[.text "Species"]⟩]

/-- A row whose 2nd cell has leading text before the embedded link. -/
def tahoeRowPast : Row :=
  [⟨[.text "06/01/2025 - 06/07/2025"]⟩,
   ⟨[.text "Lake Tahoe", .elem "a" "(map)"]⟩,
   ⟨[.text "El Dorado"]⟩,
   ⟨[.text "Rainbow Trout"]⟩]

def tahoeRowFuture : Row :=
  [⟨[.text "06/10/2025 - 06/14/2025"]⟩,
   ⟨[.text "Lake Tahoe", .elem "a" "(map)"]⟩,
   ⟨[.text "El Dorado"]⟩,
   ⟨[.text "Brown Trout"]⟩]

/-- A row whose 2nd cell consists solely of a link element (no leading text),
the shape described in the spec's scenario. -/
def tahoeRowLinkOnly : Row :=
  [⟨[.text "06/01/2025 - 06/07/2025"]⟩,
   ⟨[.elem "a" "Lake Tahoe"]⟩,
   ⟨[.text "El Dorado"]⟩,
   ⟨[.text "Rainbow Trout"]⟩]

def sampleTable : List Row := [sampleHeaderRow, tahoeRowPast, tahoeRowFuture]

def sampleToday : MDate := ⟨2025, 6, 5⟩

def sampleEvs : List Plant :=
  (plantsOf "El Dorado" sampleTable).filter fun p => p.water = "Lake Tahoe"

/-! ### Claim theorems -/

/-- C1: for every county query, in the mapping returned by
`get_fish_plants_for_county`, for every water body with at least one
surviving event dated on or before today, `recent` is an event of that water
body with the maximum such date; for every water body with at least one
surviving event dated after today, `upcoming` is an event with the minimum
such date; each is absent when no such event exists. -/
theorem C1_recent_upcoming_extremal (today : MDate) (q : String)
    (trs : List Row) (res : List (String × WBR)) (w : String) (r : WBR)
    (hres : (get_fish_plants_for_county today q (.ok trs)).1 = some res)
    (hmem : (w, r) ∈ res) :
    ((∃ e ∈ (plantsOf q trs).filter (fun p => p.water = w),
        e.date.code ≤ today.code) →
      ∃ m, r.recent = some m ∧
        m ∈ (plantsOf q trs).filter (fun p => p.water = w) ∧
        m.date.code ≤ today.code ∧
        ∀ e ∈ (plantsOf q trs).filter (fun p => p.water = w),
          e.date.code ≤ today.code → e.date.code ≤ m.date.code) ∧
    ((∀ e ∈ (plantsOf q trs).filter (fun p => p.water = w),
        ¬ e.date.code ≤ today.code) → r.recent = none) ∧
    ((∃ e ∈ (plantsOf q trs).filter (fun p => p.water = w),
        today.code < e.date.code) →
      ∃ m, r.upcoming = some m ∧
        m ∈ (plantsOf q trs).filter (fun p => p.water = w) ∧
        today.code < m.date.code ∧
        ∀ e ∈ (plantsOf q trs).filter (fun p => p.water = w),
          today.code < e.date.code → m.date.code ≤ e.date.code) ∧
    ((∀ e ∈ (plantsOf q trs).filter (fun p => p.water = w),
        ¬ today.code < e.date.code) → r.upcoming = none) := by
  have hres' : res = resultsFor today (plantsOf q trs) := by
    simpa [get_fish_plants_for_county] using hres.symm
  subst hres'
  obtain ⟨hr, _⟩ := resultsFor_mem hmem
  subst hr
  exact ⟨fun h => wbrOf_recent_spec _ _ h,
         fun h => wbrOf_recent_none _ _ h,
         fun h => wbrOf_upcoming_spec _ _ h,
         fun h => wbrOf_upcoming_none _ _ h⟩

/-- C1 witness: the theorem applied to a concrete two-event table. -/
theorem C1_recent_upcoming_extremal_witness :
    ((∃ e ∈ sampleEvs, e.date.code ≤ sampleToday.code) →
      ∃ m, (wbrOf sampleToday sampleEvs).recent = some m ∧ m ∈ sampleEvs ∧
        m.date.code ≤ sampleToday.code ∧
        ∀ e ∈ sampleEvs, e.date.code ≤ sampleToday.code →
          e.date.code ≤ m.date.code) ∧
    ((∀ e ∈ sampleEvs, ¬ e.date.code ≤ sampleToday.code) →
      (wbrOf sampleToday sampleEvs).recent = none) ∧
    ((∃ e ∈ sampleEvs, sampleToday.code < e.date.code) →
      ∃ m, (wbrOf sampleToday sampleEvs).upcoming = some m ∧ m ∈ sampleEvs ∧
        sampleToday.code < m.date.code ∧
        ∀ e ∈ sampleEvs, sampleToday.code < e.date.code →
          m.date.code ≤ e.date.code) ∧
    ((∀ e ∈ sampleEvs, ¬ sampleToday.code < e.date.code) →
      (wbrOf sampleToday sampleEvs).upcoming = none) :=
  C1_recent_upcoming_extremal sampleToday "El Dorado" sampleTable
    (resultsFor sampleToday (plantsOf "El Dorado" sampleTable)) "Lake Tahoe"
    (wbrOf sampleToday sampleEvs) rfl (by decide)

/-- C3 counterexample (negation of the claim): no key of the returned
mapping ever has `recent` and `upcoming` simultaneously absent — every group
is populated by at least one surviving event, whose date falls on one side
of today. -/
theorem C3_counterexample :
    ¬ ∃ (today : MDate) (q : String) (trs : List Row)
        (res : List (String × WBR)) (w : String) (r : WBR),
      (get_fish_plants_for_county today q (.ok trs)).1 = some res ∧
      (w, r) ∈ res ∧ r.recent = none ∧ r.upcoming = none := by
  rintro ⟨today, q, trs, res, w, r, hres, hmem, hrec, hupc⟩
  have hres' : res = resultsFor today (plantsOf q trs) := by
    simpa [get_fish_plants_for_county] using hres.symm
  subst hres'
  obtain ⟨hr, p, hp, hpw⟩ := resultsFor_mem hmem
  subst hr
  have hpe : p ∈ (plantsOf q trs).filter (fun p => p.water = w) := by
    simp [List.mem_filter, hp, hpw]
  by_cases hd : p.date.code ≤ today.code
  · obtain ⟨m, hm, -⟩ := wbrOf_recent_spec today _ ⟨p, hpe, hd⟩
    rw [hrec] at hm
    exact Option.noConfusion hm
  · obtain ⟨m, hm, -⟩ := wbrOf_upcoming_spec today _ ⟨p, hpe, by omega⟩
    rw [hupc] at hm
    exact Option.noConfusion hm

/-- C3 (amended): for every county query, every water body appearing as a
key of the returned mapping has `recent` present or `upcoming` present;
the two are never simultaneously absent. -/
theorem C3_never_both_absent (today : MDate) (q : String) (trs : List Row)
    (res : List (String × WBR)) (w : String) (r : WBR)
    (hres : (get_fish_plants_for_county today q (.ok trs)).1 = some res)
    (hmem : (w, r) ∈ res) :
    r.recent ≠ none ∨ r.upcoming ≠ none := by
  have hres' : res = resultsFor today (plantsOf q trs) := by
    simpa [get_fish_plants_for_county] using hres.symm
  subst hres'
  obtain ⟨hr, p, hp, hpw⟩ := resultsFor_mem hmem
  subst hr
  have hpe : p ∈ (plantsOf q trs).filter (fun p => p.water = w) := by
    simp [List.mem_filter, hp, hpw]
  by_cases hd : p.date.code ≤ today.code
  · obtain ⟨m, hm, -⟩ := wbrOf_recent_spec today _ ⟨p, hpe, hd⟩
    exact Or.inl (by simp [hm])
  · obtain ⟨m, hm, -⟩ := wbrOf_upcoming_spec today _ ⟨p, hpe, by omega⟩
    exact Or.inr (by simp [hm])

/-- C3 witness: the amended theorem applied to a concrete table. -/
theorem C3_never_both_absent_witness :
    (wbrOf sampleToday sampleEvs).recent ≠ none ∨
    (wbrOf sampleToday sampleEvs).upcoming ≠ none :=
  C3_never_both_absent sampleToday "El Dorado" sampleTable
    (resultsFor sampleToday (plantsOf "El Dorado" sampleTable)) "Lake Tahoe"
    (wbrOf sampleToday sampleEvs) rfl (by decide)

/-- C2 counterexample: on the row
`("06/01/2025 - 06/07/2025", "<a>Lake Tahoe</a>", "El Dorado", "Rainbow Trout")`
— a 2nd cell consisting solely of the link — the leading-text water name is
empty, the row is skipped, and the El Dorado results are empty, contradicting
the claimed water name "Lake Tahoe" and the claimed inclusion. -/
theorem C2_counterexample :
    waterName ⟨[.elem "a" "Lake Tahoe"]⟩ = "" ∧
    parseRow "El Dorado" tahoeRowLinkOnly = none ∧
    get_fish_plants_for_county sampleToday "El Dorado"
      (.ok [sampleHeaderRow, tahoeRowLinkOnly]) = (some [], none) := by
  refine ⟨by decide, by decide, by decide⟩

/-- C2 (amended): a row whose 2nd cell is solely a link yields an empty
water name and is skipped; for the same row with leading text "Lake Tahoe"
before the embedded link, the scraper produces water name "Lake Tahoe"
(link text excluded), start date 2025-06-01, and includes the event in the
El Dorado results. -/
theorem C2_row_scenario :
    parseRow "El Dorado" tahoeRowLinkOnly = none ∧
    waterName ⟨[.text "Lake Tahoe", .elem "a" "(map)"]⟩ = "Lake Tahoe" ∧
    parseRow "El Dorado" tahoeRowPast =
      some ⟨"Lake Tahoe", ⟨2025, 6, 1⟩, "06/01/2025 - 06/07/2025",
        "Rainbow Trout"⟩ ∧
    (get_fish_plants_for_county sampleToday "El Dorado"
        (.ok [sampleHeaderRow, tahoeRowPast])).1 =
      some [("Lake Tahoe",
        ⟨some ⟨"Lake Tahoe", ⟨2025, 6, 1⟩, "06/01/2025 - 06/07/2025",
           "Rainbow Trout"⟩, none⟩)] := by
  refine ⟨by decide, by decide, by decide, by decide⟩

/-- Normalisation as the spec words it (refinement comparison only):
strip a *trailing* literal " County", trim, title-case.  The source instead
removes *every* occurrence via `str.replace`. -/
def specNormalizeCounty (s : String) : String :=
  strTitle (strStrip
    (if (" County".data).isSuffixOf s.data
     then ⟨s.data.take (s.data.length - 7)⟩ else s))

/-- C4 counterexample: on input "El County Dorado" the code removes the
*interior* " County" occurrence and finds El Dorado's seat, while the
spec's trailing-only normalisation leaves the name unchanged and would
return absent. -/
theorem C4_counterexample :
    get_county_seat_coords "El County Dorado" = some (387296, -1207985) ∧
    specNormalizeCounty "El County Dorado" = "El County Dorado" ∧
    (COUNTY_SEATS.find? fun e =>
      e.1 = specNormalizeCounty "El County Dorado") = none := by
  refine ⟨by decide, by decide, by decide⟩

/-- C4 (amended): `get_county_seat_coords` removes every occurrence of the
literal " County" (not only a trailing one), trims, title-cases, then looks
up in the static 58-entry table; the result is absent exactly when the
normalized name is not a key of the table. -/
theorem C4_normalize_lookup (name : String) :
    COUNTY_SEATS.length = 58 ∧
    (get_county_seat_coords name = none ↔
      strTitle (strStrip ⟨removeCountySub name.data⟩) ∉
        COUNTY_SEATS.map Prod.fst) := by
  refine ⟨by decide, ?_⟩
  unfold get_county_seat_coords
  rw [Option.map_eq_none', List.find?_eq_none]
  constructor
  · intro h hmem
    obtain ⟨e, he, heq⟩ := List.mem_map.1 hmem
    exact absurd (by simpa using heq) (by simpa using h e he)
  · intro h e he
    simp only [decide_eq_true_eq]
    intro heq
    exact h (List.mem_map.2 ⟨e, he, heq⟩)

/-- C10: the cache key `lowercase water|county` is not injective — the
distinct pairs ("a|b", "c") and ("a", "b|c") share the key "a|b|c", so the
second call returns the first pair's cached result (even under a geocoding
service that would answer differently) without issuing a query. -/
theorem C10_key_collision :
    geocodeKey "a|b" "c" = geocodeKey "a" "b|c" ∧
    (("a|b", "c") : String × String) ≠ ("a", "b|c") ∧
    geocode_water (fun _ => some (1, 2)) [] "a|b" "c" =
      (some (1, 2), [("a|b|c", some (1, 2))], true) ∧
    geocode_water (fun _ => some (3, 4)) [("a|b|c", some (1, 2))] "a" "b|c" =
      (some (1, 2), [("a|b|c", some (1, 2))], false) := by
  refine ⟨by decide, by decide, by decide, by decide⟩

/-- Unfolding lookup over a freshly inserted cache entry. -/
theorem gcLookup_cons (key : String) (r : Option Coord) (cache : GCache)
    (k : String) :
    gcLookup ((key, r) :: cache) k =
      if key = k then some r else gcLookup cache k := by
  unfold gcLookup
  by_cases h : key = k <;> simp [List.find?_cons, h]

/-- A cache-hit call returns the cached value, leaves the cache unchanged,
and issues no query. -/
theorem geocode_water_hit (svc : Svc) (cache : GCache) (w c : String)
    (v : Option Coord) (h : gcLookup cache (geocodeKey w c) = some v) :
    geocode_water svc cache w c = (v, cache, false) := by
  simp only [geocode_water]
  rw [h]

/-- After any call, the call's own key is cached and maps to the value the
call returned. -/
theorem geocode_water_caches (svc : Svc) (cache : GCache) (w c : String) :
    gcLookup (geocode_water svc cache w c).2.1 (geocodeKey w c) =
      some (geocode_water svc cache w c).1 := by
  simp only [geocode_water]
  cases hl : gcLookup cache (geocodeKey w c) with
  | some u => exact hl
  | none => rw [gcLookup_cons]; simp

/-- A geocoder call never disturbs an existing cache entry. -/
theorem gcLookup_preserved (svc : Svc) (cache : GCache) (w c : String)
    (k : String) (v : Option Coord) (h : gcLookup cache k = some v) :
    gcLookup (geocode_water svc cache w c).2.1 k = some v := by
  simp only [geocode_water]
  cases hl : gcLookup cache (geocodeKey w c) with
  | some u => exact h
  | none =>
      have hne : geocodeKey w c ≠ k := by
        intro he
        rw [he, h] at hl
        exact Option.noConfusion hl
      rw [gcLookup_cons, if_neg hne]
      exact h

/-- An arbitrary later sequence of geocoder calls, threading the cache. -/
def runCalls : List (Svc × String × String) → GCache → GCache
  | [], cache => cache
  | (svc, w, c) :: rest, cache =>
      runCalls rest (geocode_water svc cache w c).2.1

theorem runCalls_preserved (calls : List (Svc × String × String))
    (cache : GCache) (k : String) (v : Option Coord)
    (h : gcLookup cache k = some v) :
    gcLookup (runCalls calls cache) k = some v := by
  induction calls generalizing cache with
  | nil => exact h
  | cons call rest ih =>
      exact ih _ (gcLookup_preserved call.1 cache call.2.1 call.2.2 k v h)

/-- C5: after a first call with (water, county), every later call with the
same pair up to case (same lowercase key), whatever calls happen in between
and whatever the service would now answer, returns the first call's result
— including a cached absent marker — from the cache, without issuing an
external query and without changing the cache. -/
theorem C5_cache_idempotent (svc1 : Svc) (cache : GCache) (w c : String)
    (calls : List (Svc × String × String)) (svc2 : Svc) (w2 c2 : String)
    (hkey : geocodeKey w2 c2 = geocodeKey w c) :
    geocode_water svc2 (runCalls calls (geocode_water svc1 cache w c).2.1) w2 c2 =
      ((geocode_water svc1 cache w c).1,
       runCalls calls (geocode_water svc1 cache w c).2.1, false) := by
  have h1 := geocode_water_caches svc1 cache w c
  have h2 := runCalls_preserved calls _ _ _ h1
  exact geocode_water_hit svc2 _ w2 c2 _ (by rw [hkey]; exact h2)

/-- C5 witness: a failing first call for ("A", "b") is cached as an absent
marker; after an unrelated intervening call, the call for ("a", "B") — the
same pair case-insensitively — returns the cached absent marker even though
the service would now succeed, with no query issued. -/
theorem C5_cache_idempotent_witness :
    geocode_water (fun _ => some (7, 7))
      (runCalls [(fun _ => some (9, 9), "x", "y")]
        (geocode_water (fun _ => none) [] "A" "b").2.1) "a" "B" =
      (none, [("x|y", some (9, 9)), ("a|b", none)], false) :=
  (C5_cache_idempotent (fun _ => none) [] "A" "b"
      [(fun _ => some (9, 9), "x", "y")] (fun _ => some (7, 7)) "a" "B"
      (by decide)).trans (by decide)

/-- C6: whenever the cached county list is absent or stale (so a refresh is
attempted) and the fetch/parse fails, `get_counties_from_cdfw` returns the
fixed fallback list of 58 county names — which is already sorted — and the
cache and its timestamp are left unchanged. -/
theorem C6_failure_fallback (cache : Option CountiesCache) (now : Nat)
    (hstale : cacheFresh cache now = false) :
    get_counties_from_cdfw cache now none =
      (sortBy strLtB fallbackCounties, cache) ∧
    fallbackCounties.length = 58 ∧
    sortBy strLtB fallbackCounties = fallbackCounties := by
  refine ⟨?_, by decide, by decide⟩
  unfold get_counties_from_cdfw
  rw [hstale]
  simp

/-- C6 witness: a one-hour-old cache entry is stale; the failing refresh
returns the 58-name fallback and leaves the cache untouched. -/
theorem C6_failure_fallback_witness :
    cacheFresh (some ⟨["Alameda"], 0⟩) 3600 = false ∧
    get_counties_from_cdfw (some ⟨["Alameda"], 0⟩) 3600 none =
      (sortBy strLtB fallbackCounties, some ⟨["Alameda"], 0⟩) ∧
    fallbackCounties.length = 58 ∧
    sortBy strLtB fallbackCounties = fallbackCounties :=
  ⟨by decide, C6_failure_fallback (some ⟨["Alameda"], 0⟩) 3600 (by decide)⟩

/-- `readNum` consumes one or two leading digits of its input. -/
theorem readNum_sound {cs ds rest : List Char}
    (h : readNum cs = some (ds, rest)) :
    cs = ds ++ rest ∧ 1 ≤ ds.length ∧ ds.length ≤ 2 ∧
      ds.all Char.isDigit = true := by
  cases cs with
  | nil => simp [readNum] at h
  | cons c1 rest1 =>
      cases h1 : c1.isDigit with
      | false => simp [readNum, h1] at h
      | true =>
          cases rest1 with
          | nil =>
              simp only [readNum, h1, if_true, Option.some.injEq,
                Prod.mk.injEq] at h
              obtain ⟨h2, h3⟩ := h
              subst h2; subst h3
              simp [h1]
          | cons c2 rest2 =>
              cases h2 : c2.isDigit with
              | true =>
                  simp only [readNum, h1, h2, if_true, Option.some.injEq,
                    Prod.mk.injEq] at h
                  obtain ⟨h3, h4⟩ := h
                  subst h3; subst h4
                  simp [h1, h2]
              | false =>
                  simp only [readNum, h1, h2, if_true, Bool.false_eq_true,
                    if_false, Option.some.injEq, Prod.mk.injEq] at h
                  obtain ⟨h3, h4⟩ := h
                  subst h3; subst h4
                  simp [h1]

/-- Soundness of the embedded strptime: a successful parse decomposes the
input into a 1-2-digit month block, a slash, a 1-2-digit day block, a slash
and a 4-digit year block whose numeric values are exactly the parsed date's
components, and the date passes calendar validation. -/
theorem parseMDY_sound {cs : List Char} {dt : MDate}
    (h : parseMDY cs = some dt) :
    ∃ ms ds ys : List Char,
      cs = ms ++ '/' :: (ds ++ '/' :: ys) ∧
      ms.all Char.isDigit = true ∧ 1 ≤ ms.length ∧ ms.length ≤ 2 ∧
        natOfDigits ms = dt.month ∧
      ds.all Char.isDigit = true ∧ 1 ≤ ds.length ∧ ds.length ≤ 2 ∧
        natOfDigits ds = dt.day ∧
      ys.all Char.isDigit = true ∧ ys.length = 4 ∧ natOfDigits ys = dt.year ∧
      validDate dt.year dt.month dt.day = true := by
  unfold parseMDY at h
  cases hr1 : readNum cs with
  | none => rw [hr1] at h; simp at h
  | some p1 =>
      obtain ⟨ms, rest1⟩ := p1
      rw [hr1] at h
      simp only at h
      split at h
      case isFalse => simp at h
      case isTrue hm =>
        split at h
        case h_2 => simp at h
        case h_1 rest2 =>
          cases hr2 : readNum rest2 with
          | none => rw [hr2] at h; simp at h
          | some p2 =>
              obtain ⟨ds, rest3⟩ := p2
              rw [hr2] at h
              simp only at h
              split at h
              case isFalse => simp at h
              case isTrue hd =>
                split at h
                case h_2 => simp at h
                case h_1 rest4 =>
                  split at h
                  case isFalse => simp at h
                  case isTrue hy =>
                    split at h
                    case isFalse => simp at h
                    case isTrue hv =>
                      obtain ⟨hcs, hm1, hm2, hmd⟩ := readNum_sound hr1
                      obtain ⟨hds, hd1, hd2, hdd⟩ := readNum_sound hr2
                      have hdt : dt = ⟨natOfDigits rest4,
                          natOfDigits ms, natOfDigits ds⟩ := by
                        cases h; rfl
                      refine ⟨ms, ds, rest4, ?_, hmd, hm1, hm2, ?_,
                        hdd, hd1, hd2, ?_, hy.2, hy.1, ?_, ?_⟩
                      · rw [hcs, hds]
                      · rw [hdt]
                      · rw [hdt]
                      · rw [hdt]
                      · rw [hdt]; exact hv

/-- A surviving row's stored date is the successful parse of its week
label's start token. -/
theorem parseRow_week_date {q : String} {row : Row} {p : Plant}
    (h : parseRow q row = some p) :
    parseStartDate p.week = some p.date := by
  unfold parseRow at h
  split at h
  case isTrue => simp at h
  case isFalse hlen =>
    simp only at h
    split at h
    case isTrue => simp at h
    case isFalse hwn =>
      split at h
      case isTrue => simp at h
      case isFalse hcnty =>
        split at h
        case h_1 => simp at h
        case h_2 d hd =>
          cases h
          simpa using hd

/-- A row whose start token fails to parse is silently dropped. -/
theorem parseRow_drop {q : String} (row : Row)
    (hd : parseStartDate (getText (row.get! 0)) = none) :
    parseRow q row = none := by
  unfold parseRow
  split
  · rfl
  · simp only
    split
    · rfl
    · split
      · rfl
      · rw [hd]

/-- C7: every surviving event's date is the parse of the token before the
first range separator of its week label (preferring " - ", else "-"),
trimmed; the parsed month, day and year are exactly the numeric values of
the token's slash-separated digit blocks (4-digit year) and form a valid
calendar date; and every row whose token fails to parse is dropped. -/
theorem C7_start_date_parsing (q : String) (trs : List Row) (p : Plant)
    (hp : p ∈ plantsOf q trs) :
    (∃ ms ds ys : List Char,
      parseStartDate p.week = some p.date ∧
      pyStrip (startTok p.week.data) = ms ++ '/' :: (ds ++ '/' :: ys) ∧
      ms.all Char.isDigit = true ∧ 1 ≤ ms.length ∧ ms.length ≤ 2 ∧
        natOfDigits ms = p.date.month ∧
      ds.all Char.isDigit = true ∧ 1 ≤ ds.length ∧ ds.length ≤ 2 ∧
        natOfDigits ds = p.date.day ∧
      ys.all Char.isDigit = true ∧ ys.length = 4 ∧
        natOfDigits ys = p.date.year ∧
      validDate p.date.year p.date.month p.date.day = true) ∧
    (∀ row : Row, parseStartDate (getText (row.get! 0)) = none →
      parseRow q row = none) := by
  constructor
  · obtain ⟨row, _, hparse⟩ := List.mem_filterMap.1 hp
    have hw := parseRow_week_date hparse
    obtain ⟨ms, ds, ys, hsplit, r1, r2, r3, r4, r5, r6, r7, r8, r9, r10,
      r11, r12⟩ := parseMDY_sound hw
    exact ⟨ms, ds, ys, hw, hsplit, r1, r2, r3, r4, r5, r6, r7, r8, r9,
      r10, r11, r12⟩
  · intro row hrow
    exact parseRow_drop row hrow

/-- C7 witness: the theorem applied to the concrete sample table. -/
theorem C7_start_date_parsing_witness :
    (∃ ms ds ys : List Char,
      parseStartDate "06/01/2025 - 06/07/2025" = some ⟨2025, 6, 1⟩ ∧
      pyStrip (startTok "06/01/2025 - 06/07/2025".data) =
        ms ++ '/' :: (ds ++ '/' :: ys) ∧
      ms.all Char.isDigit = true ∧ 1 ≤ ms.length ∧ ms.length ≤ 2 ∧
        natOfDigits ms = 6 ∧
      ds.all Char.isDigit = true ∧ 1 ≤ ds.length ∧ ds.length ≤ 2 ∧
        natOfDigits ds = 1 ∧
      ys.all Char.isDigit = true ∧ ys.length = 4 ∧ natOfDigits ys = 2025 ∧
      validDate 2025 6 1 = true) ∧
    (∀ row : Row, parseStartDate (getText (row.get! 0)) = none →
      parseRow "El Dorado" row = none) :=
  C7_start_date_parsing "El Dorado" sampleTable
    ⟨"Lake Tahoe", ⟨2025, 6, 1⟩, "06/01/2025 - 06/07/2025", "Rainbow Trout"⟩
    (by decide)

/-- C8: the map view resolves the pin through the chain geocoder →
county-seat table (with a substitution message) → hardcoded California
center (with a total-fallback message); concretely, when geocoding
"Lake Tahoe" in "El Dorado" fails, the rendered coordinate is El Dorado's
seat (38.7296, -120.7985) with a substitution message. -/
theorem C8_resolution_chain (svc : Svc) (cache : GCache)
    (county water : String) :
    (∀ c : Coord, (geocode_water svc cache water county).1 = some c →
      map_view svc cache county water =
        (c, none, (geocode_water svc cache water county).2.1)) ∧
    ((geocode_water svc cache water county).1 = none →
      ∀ s : Coord, get_county_seat_coords county = some s →
        map_view svc cache county water =
          (s, some (.seatSubstitution water county),
           (geocode_water svc cache water county).2.1)) ∧
    ((geocode_water svc cache water county).1 = none →
      get_county_seat_coords county = none →
      map_view svc cache county water =
        (caCenter, some .centerFallback,
         (geocode_water svc cache water county).2.1)) ∧
    map_view (fun _ => none) [] "El Dorado" "Lake Tahoe" =
      ((387296, -1207985), some (.seatSubstitution "Lake Tahoe" "El Dorado"),
       [("lake tahoe|el dorado", none)]) := by
  refine ⟨?_, ?_, ?_, by decide⟩
  · intro c hc
    unfold map_view
    simp only
    rw [hc]
  · intro hg s hs
    unfold map_view
    simp only
    rw [hg, hs]
  · intro hg hs
    unfold map_view
    simp only
    rw [hg, hs]

/-- C8 witness: the county-seat branch of the chain applied to the concrete
failing-geocoder scenario. -/
theorem C8_resolution_chain_witness :
    map_view (fun _ => none) [] "El Dorado" "Lake Tahoe" =
      ((387296, -1207985), some (.seatSubstitution "Lake Tahoe" "El Dorado"),
       [("lake tahoe|el dorado", none)]) :=
  (C8_resolution_chain (fun _ => none) [] "El Dorado" "Lake Tahoe").2.1
    rfl (387296, -1207985) (by decide)

/-- C9: a row (with ≥ 4 cells, a non-empty water name and a parsable date)
is included exactly when the query, compared case-insensitively, is a
substring of the 3rd cell's county text; "fresno" matches "Fresno County"
and "North Fresno"; a query matching no row yields an empty mapping with
no error. -/
theorem C9_county_substring (q : String) (row : Row)
    (hlen : ¬ row.length < 4)
    (hwn : ¬ waterName (row.get! 1) = "")
    (hdate : parseStartDate (getText (row.get! 0)) ≠ none) :
    ((parseRow q row).isSome = true ↔
      containsCI (getText (row.get! 2)) q = true) ∧
    containsCI "Fresno County" "fresno" = true ∧
    containsCI "North Fresno" "fresno" = true ∧
    get_fish_plants_for_county sampleToday "Nonexistent" (.ok sampleTable) =
      (some [], none) := by
  refine ⟨?_, by decide, by decide, by decide⟩
  unfold parseRow
  rw [if_neg hlen]
  simp only
  rw [if_neg hwn]
  by_cases hc : containsCI (getText (row.get! 2)) q = true
  · rw [if_neg (not_not_intro hc)]
    cases hpd : parseStartDate (getText (row.get! 0)) with
    | none => exact absurd hpd hdate
    | some d => simpa using hc
  · rw [if_pos hc]
    simpa using hc

/-- C9 witness: the inclusion criterion applied to a concrete row. -/
theorem C9_county_substring_witness :
    ((parseRow "El Dorado" tahoeRowPast).isSome = true ↔
      containsCI (getText (tahoeRowPast.get! 2)) "El Dorado" = true) ∧
    containsCI "Fresno County" "fresno" = true ∧
    containsCI "North Fresno" "fresno" = true ∧
    get_fish_plants_for_county sampleToday "Nonexistent" (.ok sampleTable) =
      (some [], none) :=
  C9_county_substring "El Dorado" tahoeRowPast (by decide) (by decide)
    (by decide)

end FishApp
